import Mathlib

/-!
Verification of the numeric buffer transform module of `src/iter_main.rs`.

The Rust source defines five free functions over slices of `f32`:

* `inlined_func(array: &[f32], scaling: f32) -> f32` — a fused pass
  `array.iter().map(|x| *x * scaling).map(|x| x + 1.98765432)
        .fold(0_f32, |sum, x| sum + x).div(array.len() as f32)`;
* `scale(array: &mut [f32], scaling: f32)` — in place `*x = *x * scaling`;
* `offset(array: &mut [f32], y: f32)` — in place `*x = *x + y`;
* `mean(array: &[f32]) -> f32` — `fold(0_f32, |sum, x| sum + x) / len as f32`;
* `composed_func(array: &mut [f32], scaling: f32) -> f32` —
  `scale(array, scaling); offset(array, 1.98765432f32); mean(array)`.

Embedding choices:

* A buffer is a `List F`.  Rust functions taking `&mut [f32]` are embedded in
  state-passing style: the returned `List F` is the buffer after the call.
  Functions taking `&[f32]` (shared, immutable borrow) are embedded as pairs
  `(buffer after, result)`, where the buffer after is by construction the
  input — mirroring that a shared borrow cannot write.
* The `f32` arithmetic is abstracted into a structure `FloatOps F` holding
  the addition, multiplication and division used by the source, the `0_f32`
  constant, the `len() as f32` conversion and the decimal-literal
  interpretation.  Structural facts (which operations are applied, in which
  order, to which elements) are proved for every interpretation of
  `FloatOps`, hence in particular for genuine IEEE-754 binary32.
* A concrete model `F32` of IEEE-754 binary32 (round to nearest, ties to
  even, subnormals, overflow to infinity, NaN) over exact rationals
  instantiates `FloatOps` for the claims about concrete values.
-/

namespace STX

/-- The floating-point operations used by `iter_main.rs`, abstracted:
`add`, `mul`, `div` are the `f32` arithmetic operators, `zero` is `0_f32`,
`ofLen n` is `n as f32` applied to `array.len()`, and `lit q` is the `f32`
constant denoted by a decimal literal with exact value `q`. -/
structure FloatOps (F : Type) where
  add : F → F → F
  mul : F → F → F
  div : F → F → F
  zero : F
  ofLen : Nat → F
  lit : ℚ → F

/-- Exact decimal value of the literal `1.98765432` appearing in
`inlined_func` and `composed_func`. -/
def litK : ℚ := 1.98765432

/-- `inlined_func` from `src/iter_main.rs`: two maps, a left fold from
`0_f32`, division by `array.len() as f32`.  Takes `&[f32]`, so the buffer
after the call is the input itself. -/
def inlined_func {F : Type} (ops : FloatOps F) (array : List F) (scaling : F) :
    List F × F :=
  (array,
    ops.div
      (((array.map (fun x => ops.mul x scaling)).map
          (fun x => ops.add x (ops.lit litK))).foldl
        (fun sum x => ops.add sum x) ops.zero)
      (ops.ofLen array.length))

/-- `scale` from `src/iter_main.rs`: `*x = *x * scaling` at every position;
the returned list is the buffer after the in-place mutation. -/
def scale {F : Type} (ops : FloatOps F) (array : List F) (scaling : F) :
    List F :=
  array.map (fun x => ops.mul x scaling)

/-- `offset` from `src/iter_main.rs`: `*x = *x + y` at every position;
the returned list is the buffer after the in-place mutation. -/
def offset {F : Type} (ops : FloatOps F) (array : List F) (y : F) : List F :=
  array.map (fun x => ops.add x y)

/-- The intermediate `let sum = array.iter().fold(0_f32, |sum, x| sum + x)`
of `mean`. -/
def sum {F : Type} (ops : FloatOps F) (array : List F) : F :=
  array.foldl (fun sum x => ops.add sum x) ops.zero

/-- `mean` from `src/iter_main.rs`: `sum / array.len() as f32`.  Takes
`&[f32]`, so the buffer after the call is the input itself. -/
def mean {F : Type} (ops : FloatOps F) (array : List F) : List F × F :=
  (array, ops.div (sum ops array) (ops.ofLen array.length))

/-- `composed_func` from `src/iter_main.rs`:
`scale(array, scaling); offset(array, 1.98765432f32); mean(array)`,
threading the buffer state through the three calls. -/
def composed_func {F : Type} (ops : FloatOps F) (array : List F)
    (scaling : F) : List F × F :=
  let a1 := scale ops array scaling
  let a2 := offset ops a1 (ops.lit litK)
  let m := mean ops a2
  (m.1, m.2)

/-! ## A concrete model of IEEE-754 binary32 -/

/-- IEEE-754 binary32 values: NaN, signed infinities, and finite values
carried as exact rationals (`wf` below singles out the representable
ones). -/
inductive F32 : Type
  | nan : F32
  | inf : Bool → F32
  | fin : ℚ → F32
  deriving DecidableEq, Repr

/-- Base-2 logarithm of a natural number, with explicit fuel so that it is
structurally recursive (`log2Fuel n n` is `Nat.log2 n` for every `n`). -/
def log2Fuel : Nat → Nat → Nat
  | 0, _ => 0
  | fuel + 1, n => if 2 ≤ n then log2Fuel fuel (n / 2) + 1 else 0

/-- Floor of the base-2 logarithm of a natural number. -/
def natLog2 (n : Nat) : Nat := log2Fuel n n

/-- Floor of the base-2 logarithm of a positive rational. -/
def floorLog2 (q : ℚ) : ℤ :=
  let c : ℤ := (natLog2 q.num.natAbs : ℤ) - (natLog2 q.den : ℤ)
  if (2 : ℚ) ^ c ≤ q then c else c - 1

/-- Round a rational to an integer, to nearest, ties to even. -/
def rnearestEven (q : ℚ) : ℤ :=
  let f : ℤ := Rat.floor q
  let frac : ℚ := q - (f : ℚ)
  if frac < 1 / 2 then f
  else if 1 / 2 < frac then f + 1
  else if f % 2 = 0 then f else f + 1

/-- Round an exact rational to the nearest IEEE-754 binary32 value
(round to nearest, ties to even; subnormal range below `2 ^ (-126)` with
unit `2 ^ (-149)`; overflow to infinity at `2 ^ 128`). -/
def roundF32 (q : ℚ) : F32 :=
  if q = 0 then .fin 0
  else
    let a : ℚ := |q|
    let e : ℤ := floorLog2 a
    let ulpExp : ℤ := if e ≤ -127 then -149 else e - 23
    let m : ℤ := rnearestEven (a / (2 : ℚ) ^ ulpExp)
    let r : ℚ := (m : ℚ) * (2 : ℚ) ^ ulpExp
    if (2 : ℚ) ^ (128 : ℤ) ≤ r then .inf (q < 0)
    else .fin (if q < 0 then -r else r)

/-- IEEE-754 binary32 addition. -/
def f32Add : F32 → F32 → F32
  | .nan, _ => .nan
  | _, .nan => .nan
  | .inf s, .inf t => if s = t then .inf s else .nan
  | .inf s, .fin _ => .inf s
  | .fin _, .inf t => .inf t
  | .fin a, .fin b => roundF32 (a + b)

/-- IEEE-754 binary32 multiplication. -/
def f32Mul : F32 → F32 → F32
  | .nan, _ => .nan
  | _, .nan => .nan
  | .inf s, .inf t => .inf (xor s t)
  | .inf s, .fin b => if b = 0 then .nan else .inf (xor s (decide (b < 0)))
  | .fin a, .inf t => if a = 0 then .nan else .inf (xor (decide (a < 0)) t)
  | .fin a, .fin b => roundF32 (a * b)

/-- IEEE-754 binary32 division. -/
def f32Div : F32 → F32 → F32
  | .nan, _ => .nan
  | _, .nan => .nan
  | .inf _, .inf _ => .nan
  | .inf s, .fin b => .inf (xor s (decide (b < 0)))
  | .fin _, .inf _ => .fin 0
  | .fin a, .fin b =>
    if b = 0 then (if a = 0 then .nan else .inf (decide (a < 0)))
    else roundF32 (a / b)

/-- The `FloatOps` instance given by genuine binary32 arithmetic:
decimal literals and `usize as f32` round to nearest even, as in Rust. -/
def f32Ops : FloatOps F32 where
  add := f32Add
  mul := f32Mul
  div := f32Div
  zero := .fin 0
  ofLen := fun n => roundF32 (n : ℚ)
  lit := fun q => roundF32 q

/-- Well-formedness: a finite `F32` is well formed when its rational is
exactly representable in binary32 (rounding fixes it); NaN and the
infinities are always well formed. -/
def F32.wf : F32 → Bool
  | .fin q => decide (roundF32 q = .fin q)
  | _ => true

/-- `x` is a finite binary32 value within `tol` of the rational `target`. -/
def F32.within (x : F32) (target tol : ℚ) : Bool :=
  match x with
  | .fin q => decide (|q - target| < tol)
  | _ => false

/-- Pointwise `F32.within` over a buffer and a list of rational targets. -/
def listWithin (xs : List F32) (ts : List ℚ) (tol : ℚ) : Bool :=
  decide (xs.length = ts.length) &&
    (xs.zip ts).all fun p => p.1.within p.2 tol

/-- The buffer `[3.4, 5.7, 9.0]` built in `main` (`arr_a` / `arr_b` hold the
same initial contents). -/
def arr_b : List F32 := [f32Ops.lit 3.4, f32Ops.lit 5.7, f32Ops.lit 9.0]

/-! ## Helper lemmas -/

/-- The value returned by `inlined_func` coincides, operation for operation,
with the value returned by `composed_func`: both fold `f32Add` from `0_f32`
over the list obtained by mapping multiplication and then addition, and
divide by the same length. -/
lemma inlined_val_eq_composed_val {F : Type} (ops : FloatOps F)
    (B : List F) (s : F) :
    (inlined_func ops B s).2 = (composed_func ops B s).2 := by
  simp [inlined_func, composed_func, mean, scale, offset, sum,
    List.length_map]

/-- The buffer left behind by `composed_func` holds `(x * scaling) + K` at
the position of each original element `x`. -/
lemma composed_buffer_elems {F : Type} (ops : FloatOps F)
    (B : List F) (s : F) :
    (composed_func ops B s).1 =
      B.map (fun x => ops.add (ops.mul x s) (ops.lit litK)) := by
  simp [composed_func, mean, scale, offset, List.map_map, Function.comp]

/-- Multiplying a well-formed binary32 value by `1.0f32` returns it
unchanged. -/
lemma f32Mul_one_wf (x : F32) (h : F32.wf x = true) :
    f32Mul x (F32.fin 1) = x := by
  cases x with
  | nan => rfl
  | inf s => cases s <;> rfl
  | fin a =>
    have h2 : roundF32 a = F32.fin a := of_decide_eq_true h
    show roundF32 (a * 1) = F32.fin a
    rw [mul_one, h2]

/-- Mapping multiplication by `1.0f32` over a buffer of well-formed
binary32 values is the identity. -/
lemma map_f32Mul_one : ∀ (B : List F32), (∀ x ∈ B, F32.wf x = true) →
    B.map (fun x => f32Mul x (F32.fin 1)) = B
  | [], _ => rfl
  | a :: t, h => by
    have ha := f32Mul_one_wf a (h a (List.mem_cons_self a t))
    have ht := map_f32Mul_one t (fun x hx => h x (List.mem_cons_of_mem a hx))
    simp only [List.map_cons, ha, ht]

/-! ## Claims -/

/-- C1: for every non-empty buffer `B` and factor `f`, the value returned by
`composed_func` on `B` equals the value returned by `inlined_func` on the
same initial contents (here exactly, hence within any floating-point
tolerance), `inlined_func` leaves its input buffer unchanged, and
`composed_func` mutates its buffer to `(x * f) + 1.98765432` at every
element. -/
theorem claim_C1_inlined_equiv_composed (F : Type) (ops : FloatOps F)
    (B : List F) (f : F) (_hB : B ≠ []) :
    (inlined_func ops B f).2 = (composed_func ops B f).2 ∧
    (inlined_func ops B f).1 = B ∧
    (composed_func ops B f).1 =
      B.map (fun x => ops.add (ops.mul x f) (ops.lit litK)) :=
  ⟨inlined_val_eq_composed_val ops B f, rfl, composed_buffer_elems ops B f⟩

/-- Witness for C1 at the concrete one-element binary32 buffer `[1.0]` with
factor `2.0`. -/
theorem claim_C1_witness :
    (inlined_func f32Ops [F32.fin 1] (F32.fin 2)).2 =
      (composed_func f32Ops [F32.fin 1] (F32.fin 2)).2 ∧
    (inlined_func f32Ops [F32.fin 1] (F32.fin 2)).1 = [F32.fin 1] ∧
    (composed_func f32Ops [F32.fin 1] (F32.fin 2)).1 =
      [F32.fin 1].map
        (fun x => f32Ops.add (f32Ops.mul x (F32.fin 2)) (f32Ops.lit litK)) :=
  claim_C1_inlined_equiv_composed F32 f32Ops [F32.fin 1] (F32.fin 2)
    (by decide)

/-- C2: `composed_func B s` is exactly `scale(B, s)` followed by
`offset(-, K)` with `K = 1.98765432` followed by `mean`, and afterwards the
element at every index `i` is `(old_B[i] * s) + K`. -/
theorem claim_C2_composed_pipeline (F : Type) (ops : FloatOps F)
    (B : List F) (s : F) (i : Nat) :
    composed_func ops B s =
      (offset ops (scale ops B s) (ops.lit (1.98765432 : ℚ)),
        (mean ops (offset ops (scale ops B s) (ops.lit (1.98765432 : ℚ)))).2) ∧
    ((composed_func ops B s).1)[i]? =
      (B[i]?).map (fun x => ops.add (ops.mul x s) (ops.lit (1.98765432 : ℚ))) := by
  refine ⟨rfl, ?_⟩
  rw [composed_buffer_elems]
  simp [litK, List.getElem?_map]

/-- C3: for every non-empty buffer `B`, `mean B` is exactly (hence within
`1e-5` relative error) the fold-sum of `B` divided by its length, and the
buffer after the call is the input buffer. -/
theorem claim_C3_mean_sum_div_len (F : Type) (ops : FloatOps F)
    (B : List F) (_hB : B ≠ []) :
    (mean ops B).2 = ops.div (sum ops B) (ops.ofLen B.length) ∧
    (mean ops B).1 = B :=
  ⟨rfl, rfl⟩

/-- Witness for C3 at the concrete binary32 buffer `[1.0, 2.0]`. -/
theorem claim_C3_witness :
    (mean f32Ops [F32.fin 1, F32.fin 2]).2 =
      f32Ops.div (sum f32Ops [F32.fin 1, F32.fin 2])
        (f32Ops.ofLen ([F32.fin 1, F32.fin 2] : List F32).length) ∧
    (mean f32Ops [F32.fin 1, F32.fin 2]).1 = [F32.fin 1, F32.fin 2] :=
  claim_C3_mean_sum_div_len F32 f32Ops [F32.fin 1, F32.fin 2] (by decide)

/-- C4: `scale` writes `old_B[i] * s` at every index `i` (stated through
total indexing with `[i]?`, which also shows no index beyond the length is
touched), preserves the length, and is a no-op on the empty buffer. -/
theorem claim_C4_scale_spec (F : Type) (ops : FloatOps F)
    (B : List F) (s : F) (i : Nat) :
    (scale ops B s).length = B.length ∧
    (scale ops B s)[i]? = (B[i]?).map (fun x => ops.mul x s) ∧
    scale ops ([] : List F) s = [] := by
  refine ⟨?_, ?_, rfl⟩
  · simp [scale]
  · simp [scale, List.getElem?_map]

/-- C5: `offset` writes `old_B[i] + d` at every index `i`, preserves the
length, and is a no-op on the empty buffer. -/
theorem claim_C5_offset_spec (F : Type) (ops : FloatOps F)
    (B : List F) (d : F) (i : Nat) :
    (offset ops B d).length = B.length ∧
    (offset ops B d)[i]? = (B[i]?).map (fun x => ops.add x d) ∧
    offset ops ([] : List F) d = [] := by
  refine ⟨?_, ?_, rfl⟩
  · simp [offset]
  · simp [offset, List.getElem?_map]

/-- C6: on the empty buffer, `mean` — directly, via `composed_func` or via
`inlined_func` — evaluates `0.0f32 / (0 as f32)` and returns NaN; being a
total function of the model, it raises no error. -/
theorem claim_C6_mean_empty_nan :
    (mean f32Ops ([] : List F32)).2 = F32.nan ∧
    (∀ s : F32, (composed_func f32Ops ([] : List F32) s).2 = F32.nan) ∧
    (∀ s : F32, (inlined_func f32Ops ([] : List F32) s).2 = F32.nan) :=
  ⟨rfl, fun _ => rfl, fun _ => rfl⟩

set_option maxRecDepth 100000 in
attribute [local semireducible] Rat.mul Rat.add Rat.sub Rat.inv Rat.ofScientific in
/-- C7 (counterexample): after `scale([3.4, 5.7, 9.0], 0.6)` the binary32
buffer is not exactly `[2.04, 3.42, 5.4]` — the first element is
`8556381 / 2^22` (≈ 2.0400002), one ulp above the binary32 value of the
literal `2.04`, namely `8556380 / 2^22` (≈ 2.0399999). -/
theorem claim_C7_counterexample :
    ¬ (scale f32Ops arr_b (f32Ops.lit 0.6) =
        [f32Ops.lit 2.04, f32Ops.lit 3.42, f32Ops.lit 5.4]) := by decide

set_option maxRecDepth 100000 in
attribute [local semireducible] Rat.mul Rat.add Rat.sub Rat.inv Rat.ofScientific in
/-- C7 (amended): with `B = [3.4, 5.7, 9.0]` and factor `0.6`, `scale`
turns the buffer into approximately `[2.04, 3.42, 5.4]` (each element
within `1e-5`), `offset(-, 1.98765432)` then gives approximately
`[4.02765432, 5.40765432, 7.38765432]`, the mean of that is approximately
`5.6076543`, and `inlined_func` on the same initial contents returns
exactly that mean without changing its input buffer. -/
theorem claim_C7_concrete_scenario :
    listWithin (scale f32Ops arr_b (f32Ops.lit 0.6))
      [2.04, 3.42, 5.4] (1 / 100000) = true ∧
    listWithin
      (offset f32Ops (scale f32Ops arr_b (f32Ops.lit 0.6))
        (f32Ops.lit 1.98765432))
      [4.02765432, 5.40765432, 7.38765432] (1 / 100000) = true ∧
    F32.within
      (mean f32Ops
        (offset f32Ops (scale f32Ops arr_b (f32Ops.lit 0.6))
          (f32Ops.lit 1.98765432))).2
      5.6076543 (1 / 100000) = true ∧
    (inlined_func f32Ops arr_b (f32Ops.lit 0.6)).2 =
      (mean f32Ops
        (offset f32Ops (scale f32Ops arr_b (f32Ops.lit 0.6))
          (f32Ops.lit 1.98765432))).2 ∧
    (inlined_func f32Ops arr_b (f32Ops.lit 0.6)).1 = arr_b := by
  refine ⟨by decide, by decide, by decide, by decide, rfl⟩

set_option maxRecDepth 100000 in
attribute [local semireducible] Rat.mul Rat.add Rat.sub Rat.inv Rat.ofScientific in
/-- C8: scaling a buffer of well-formed binary32 values by the literal
`1.0` leaves every element exactly unchanged (multiplication by one is
exact in IEEE-754). -/
theorem claim_C8_scale_one_identity (B : List F32)
    (h : ∀ x ∈ B, F32.wf x = true) :
    scale f32Ops B (f32Ops.lit 1) = B := by
  have hl : f32Ops.lit 1 = F32.fin 1 := by decide
  rw [hl]
  exact map_f32Mul_one B h

set_option maxRecDepth 100000 in
attribute [local semireducible] Rat.mul Rat.add Rat.sub Rat.inv Rat.ofScientific in
/-- Witness for C8 at the concrete binary32 buffer `[3.4f32, 5.7f32]`. -/
theorem claim_C8_witness :
    scale f32Ops [f32Ops.lit 3.4, f32Ops.lit 5.7] (f32Ops.lit 1) =
      [f32Ops.lit 3.4, f32Ops.lit 5.7] :=
  claim_C8_scale_one_identity [f32Ops.lit 3.4, f32Ops.lit 5.7] (by decide)

/-- C9: every operation preserves the buffer length, and no operation
inserts, removes or reorders elements: the read-only operations return the
buffer itself, and each mutating operation writes position `i` of the
result as a function of position `i` of the input alone. -/
theorem claim_C9_length_preserved (F : Type) (ops : FloatOps F)
    (B : List F) (s y : F) (i : Nat) :
    (scale ops B s).length = B.length ∧
    (offset ops B y).length = B.length ∧
    (mean ops B).1 = B ∧
    (inlined_func ops B s).1 = B ∧
    ((composed_func ops B s).1).length = B.length ∧
    (scale ops B s)[i]? = (B[i]?).map (fun x => ops.mul x s) ∧
    (offset ops B y)[i]? = (B[i]?).map (fun x => ops.add x y) ∧
    ((composed_func ops B s).1)[i]? =
      (B[i]?).map (fun x => ops.add (ops.mul x s) (ops.lit litK)) := by
  refine ⟨by simp [scale], by simp [offset], rfl, rfl, ?_, ?_, ?_, ?_⟩
  · rw [composed_buffer_elems]; simp
  · simp [scale, List.getElem?_map]
  · simp [offset, List.getElem?_map]
  · rw [composed_buffer_elems]; simp [List.getElem?_map]

/-- C10: for every buffer and factor, and for every interpretation of the
`f32` operations — in particular genuine IEEE-754 binary32 — the value
returned by `inlined_func` is identical (bit for bit) to the value
returned by `composed_func` on the same initial contents: both add
`(x * f) + 1.98765432` per element, fold the sum left to right from
`0.0`, and divide by the length. -/
theorem claim_C10_bitwise_equal (F : Type) (ops : FloatOps F)
    (B : List F) (f : F) :
    (inlined_func ops B f).2 = (composed_func ops B f).2 :=
  inlined_val_eq_composed_val ops B f

end STX
